import Mathlib

/-!
Verification of the rm-pad remote grab agents.

The repository ships three small C programs that run on the tablet, grab an
evdev input device exclusively (EVIOCGRAB) and relay its fixed-size event
records to stdout:

* `rm-mouse-grabber` (grabber.c): takes `--device`, `--pidfile` and the
  optional `--alive-file` / `--stale-sec` arguments.  With an alive file it
  polls with a 1000 ms timeout and, when poll times out, compares the alive
  file mtime against the staleness threshold.  A buffer of exactly one
  16-byte input_event record is used.
* `evgrab` (helper/evgrab.c): takes a device path only; a hardcoded watchdog
  file is checked at the top of every loop iteration against a 5 second
  timeout; a 4096-byte buffer is used and each read chunk is written out
  completely by an inner write loop.
* the no-watchdog `evgrab` variant: polls the device fd and stdout together
  and exits when stdout reports POLLERR/POLLHUP/POLLNVAL.

Each program is embedded as a function from an input (argument list, open
and grab success flags, and a finite schedule of per-iteration observations
of the environment: signals, the clock, the marker file mtime, poll
revents, read and write return values) to a result describing the exit
path, the exit code and the relayed chunks.  The kernel syscall contracts
are embedded where the code relies on them: read returns at most the buffer
size, write returns at most the requested count, and process termination
closes all file descriptors, which is what releases an EVIOCGRAB capture
when no explicit release runs.
-/

namespace RmPad

/-- Size of a 32-bit ARM input_event record (grabber.c INPUT_EVENT_SIZE). -/
def INPUT_EVENT_SIZE : Nat := 16

/-- grabber.c POLL_TIMEOUT_MS. -/
def POLL_TIMEOUT_MS : Nat := 1000

/-- evgrab.c WATCHDOG_TIMEOUT_SECS. -/
def WATCHDOG_TIMEOUT_SECS : Int := 5

/-- evgrab.c CHECK_INTERVAL_MS. -/
def CHECK_INTERVAL_MS : Nat := 1000

/-- Linux poll(2) event bits. -/
def POLLIN : Nat := 1

/-- Linux POLLOUT bit. -/
def POLLOUT : Nat := 4

/-- Linux POLLERR bit. -/
def POLLERR : Nat := 8

/-- Linux POLLHUP bit. -/
def POLLHUP : Nat := 16

/-- Linux POLLNVAL bit. -/
def POLLNVAL : Nat := 32

/-- read(fd, buf, cap) returns at most cap bytes; errors pass through. -/
def readEff (cap : Int) (r : Int) : Int := if r > cap then cap else r

namespace Grabber

/-- Accumulate decimal digits, as in the digit loop of atoi. -/
def digitsVal : List Char → Nat → Nat
  | [], acc => acc
  | c :: cs, acc =>
    if c.isDigit then digitsVal cs (10 * acc + (c.toNat - 48)) else acc

/-- C atoi: skip leading whitespace, optional sign, then decimal digits. -/
def atoi (s : String) : Int :=
  let cs := s.data.dropWhile (fun c => c = ' ' || c = '\t' || c = '\n')
  match cs with
  | '-' :: rest => -(digitsVal rest 0 : Int)
  | '+' :: rest => (digitsVal rest 0 : Int)
  | rest => (digitsVal rest 0 : Int)

/-- Result of the argument loop in grabber.c main (lines 66-80). -/
structure Args where
  device : Option String := none
  pidfile : Option String := none
  aliveFile : Option String := none
  staleSec : Int := 10
deriving Repr, DecidableEq

/-- The argument loop of grabber.c main: a flag followed by a value sets the
corresponding variable (the value is consumed); any other argument, or a
flag with no following value, is skipped. -/
def parseArgs : List String → Args → Args
  | "--device" :: v :: rest, a => parseArgs rest { a with device := some v }
  | "--pidfile" :: v :: rest, a => parseArgs rest { a with pidfile := some v }
  | "--alive-file" :: v :: rest, a => parseArgs rest { a with aliveFile := some v }
  | "--stale-sec" :: v :: rest, a => parseArgs rest { a with staleSec := atoi v }
  | _ :: rest, a => parseArgs rest a
  | [], a => a

/-- grabber.c alive_file_stale: 1 iff the file exists (stat succeeds, here
mtime = some m) and now - mtime is strictly greater than stale_sec.
A missing file (stat fails, here mtime = none) is NOT stale. -/
def alive_file_stale (aliveMtime : Option Int) (now : Int) (staleSec : Int) : Bool :=
  match aliveMtime with
  | none => false
  | some m => decide (now - m > staleSec)

/-- Per-iteration observations of the environment for one pass of the
grabber.c relay loop: a pending fatal signal, the clock, the alive file
mtime (none when stat fails), and the poll, read and write return values.
Fields irrelevant to the branch actually taken are ignored. -/
structure Obs where
  sig : Bool := false
  now : Int := 0
  aliveMtime : Option Int := none
  pollRet : Int := 1
  revents : Nat := POLLIN
  readRet : Int := 0
  writeRet : Int := 0
deriving Repr, DecidableEq

/-- Why the grabber.c relay loop stopped. -/
inductive Reason
  | signal
  | pollErr
  | stale
  | readEnd
  | writeFail
deriving Repr, DecidableEq

/-- Result of a relay loop run: the reason it stopped (none when the finite
schedule ran out with the loop still going) and the bytes written to stdout
by each write call, in order. -/
structure LoopOut where
  reason : Option Reason := none
  chunks : List Nat := []
deriving Repr, DecidableEq

/-- The write(2) contract: a return never exceeds the requested count n.
A scheduled write observation above n is clamped to n. -/
def clampWrite (n w : Int) : Int := if w > n then n else w

/-- One read-then-write body shared by both grabber.c loops (lines 114-116
and 132-134): read into the 16-byte buffer, then a single write; any write
return different from the byte count read breaks the loop.  Returns the
break reason (none to keep looping) and the bytes this write call put on
stdout. -/
def relayStep (o : Obs) : Option Reason × List Nat :=
  let n := readEff 16 o.readRet
  if n ≤ 0 then (some .readEnd, [])
  else
    let w := clampWrite n o.writeRet
    if w ≠ n then (some .writeFail, [w.toNat])
    else (none, [n.toNat])

/-- One pass of the self-check loop of grabber.c (lines 120-135): a
pending fatal signal runs sig_handler, which calls _exit(0); a poll error
breaks; a poll timeout checks alive_file_stale and breaks when stale;
otherwise only a POLLIN revent leads to the read and write body. -/
def scStep (staleSec : Int) (o : Obs) : Option Reason × List Nat :=
  if o.sig then (some .signal, [])
  else if o.pollRet < 0 then (some .pollErr, [])
  else if o.pollRet = 0 then
    if alive_file_stale o.aliveMtime o.now staleSec then (some .stale, [])
    else (none, [])
  else if o.revents &&& POLLIN = 0 then (none, [])
  else relayStep o

/-- The self-check loop of grabber.c: run scStep on each observation until
it breaks or the schedule ends. -/
def loopSC (staleSec : Int) : List Obs → LoopOut
  | [] => {}
  | o :: rest =>
    match scStep staleSec o with
    | (some r, cs) => { reason := some r, chunks := cs }
    | (none, cs) =>
      let out := loopSC staleSec rest
      { reason := out.reason, chunks := cs ++ out.chunks }

/-- One pass of the blocking loop of grabber.c used when no alive file is
given (lines 113-117): a pending fatal signal _exits, otherwise read then
write with no poll and no staleness check. -/
def bStep (o : Obs) : Option Reason × List Nat :=
  if o.sig then (some .signal, []) else relayStep o

/-- The blocking loop of grabber.c: run bStep on each observation until it
breaks or the schedule ends. -/
def loopB : List Obs → LoopOut
  | [] => {}
  | o :: rest =>
    match bStep o with
    | (some r, cs) => { reason := some r, chunks := cs }
    | (none, cs) =>
      let out := loopB rest
      { reason := out.reason, chunks := cs ++ out.chunks }

/-- Whether grabber.c exited through the signal handler (_exit, skipping
cleanup) or through the normal return after the loop (cleanup runs). -/
inductive ExitKind
  | normalReturn
  | signalExit
deriving Repr, DecidableEq

/-- Observable facts about one terminated grabber.c process: its exit code,
which exit path it took, whether release_grab ran ioctl(fd, EVIOCGRAB, 0),
whether the code closed the device fd, whether the release is instead due
to kernel cleanup at process exit, and the pidfile actions. -/
structure Outcome where
  exitCode : Int
  exitKind : ExitKind := .normalReturn
  grabReleasedByIoctl : Bool := false
  fdClosedByCode : Bool := false
  kernelCleanup : Bool := false
  pidfileCreated : Bool := false
  pidfileUnlinked : Bool := false
  reason : Option Reason := none
  chunks : List Nat := []
deriving Repr, DecidableEq

/-- Input of one grabber.c execution: the arguments after the program name,
whether open, EVIOCGRAB and the pidfile fopen succeed, and the schedule of
loop observations. -/
structure Input where
  argv : List String := []
  openOk : Bool := true
  grabOk : Bool := true
  pidfileWriteOk : Bool := true
  sched : List Obs := []
deriving Repr, DecidableEq

/-- Result of running grabber.c main on an input: the pre-relay failure
exits, a still-running snapshot when the schedule ends without a loop exit
(the grab is still held then), or a terminated process outcome. -/
inductive Result
  | usage
  | openFail
  | grabFail
  | running (pidfileCreated : Bool) (chunks : List Nat)
  | exited (o : Outcome)
deriving Repr, DecidableEq

/-- grabber.c main: parse arguments; usage error when --device or --pidfile
is missing; open, then EVIOCGRAB (failure closes the fd and returns 1);
write the pidfile (fopen of an empty path fails and is ignored); run the
self-check loop when an alive file was given, the blocking loop otherwise;
on a signal the handler calls _exit(0) so cleanup is skipped and only the
kernel closes the fd; on any loop break, cleanup runs release_grab, close
and unlink (unlink only for a nonempty pidfile path) and main returns 0. -/
def main (inp : Input) : Result :=
  let a := parseArgs inp.argv {}
  if a.device.isNone || a.pidfile.isNone then .usage
  else if !inp.openOk then .openFail
  else if !inp.grabOk then .grabFail
  else
    let pidfile := a.pidfile.getD ""
    let created := inp.pidfileWriteOk && !(pidfile = "")
    let out := if a.aliveFile.isSome then loopSC a.staleSec inp.sched else loopB inp.sched
    match out.reason with
    | none => .running created out.chunks
    | some Reason.signal =>
      .exited { exitCode := 0, exitKind := .signalExit,
                grabReleasedByIoctl := false, fdClosedByCode := false,
                kernelCleanup := true,
                pidfileCreated := created, pidfileUnlinked := false,
                reason := some .signal, chunks := out.chunks }
    | some r =>
      .exited { exitCode := 0, exitKind := .normalReturn,
                grabReleasedByIoctl := true, fdClosedByCode := true,
                kernelCleanup := false,
                pidfileCreated := created, pidfileUnlinked := !(pidfile = ""),
                reason := some r, chunks := out.chunks }

/-- The exit code of a terminated run (none while still running). -/
def exitCodeOf : Result → Option Int
  | .usage => some 1
  | .openFail => some 1
  | .grabFail => some 1
  | .running _ _ => none
  | .exited o => some o.exitCode

/-- True when the process has terminated with the capture still held: the
capture was acquired and neither release_grab, nor a close of the device
fd, nor kernel cleanup at process exit released it.  A still-running
result has not terminated, and the pre-grab failure exits either never
acquired the capture or closed the fd (grabFail). -/
def exitsHoldingGrab : Result → Bool
  | .exited o => !(o.grabReleasedByIoctl || o.fdClosedByCode || o.kernelCleanup)
  | _ => false

/-- Whether the pidfile was ever created in this run. -/
def pidfileEverCreated : Result → Bool
  | .running created _ => created
  | .exited o => o.pidfileCreated
  | _ => false

end Grabber

namespace Evgrab

/-- The inner write-out loop of evgrab.c (lines 139-151): keep calling
write on the remaining bytes until none are left; a return of zero or less
fails.  The schedule supplies the successive write return values; the
write(2) contract that a return never exceeds the requested count is
embedded by clamping, and running out of scheduled results with bytes
still unwritten is read as the next write failing.  Returns whether all
bytes were written and how many bytes the calls wrote in total. -/
def writeAll (ws : List Int) (remaining : Nat) : Bool × Nat :=
  match ws, remaining with
  | _, 0 => (true, 0)
  | [], _ + 1 => (false, 0)
  | w :: ws, r + 1 =>
    if w ≤ 0 then (false, 0)
    else
      let step := min w.toNat (r + 1)
      let res := writeAll ws (r + 1 - step)
      (res.1, step + res.2)

/-- Per-iteration observations for one pass of the evgrab.c main loop:
the should_exit flag as seen at the while condition, time(NULL), the
watchdog file mtime as returned by get_file_mtime (0 when stat fails),
the poll return with its errno, the device revents, the read return with
its errno, and the successive write return values of the write-out loop. -/
structure Obs where
  sig : Bool := false
  now : Int := 0
  mtime : Int := 1
  pollRet : Int := 1
  pollEINTR : Bool := false
  revents : Nat := POLLIN
  readRet : Int := 0
  readEINTR : Bool := false
  writeRets : List Int := []
deriving Repr, DecidableEq

/-- Why the evgrab.c main loop stopped. -/
inductive Reason
  | signal
  | missing
  | stale
  | pollErr
  | devErr
  | eof
  | readErr
  | writeFail
deriving Repr, DecidableEq

/-- Result of a run of the evgrab.c main loop: the reason it stopped (none
when the finite schedule ran out with the loop still going), the value the
process returns for that exit, and the (bytes read, bytes written) pair of
each read chunk, in order. -/
structure LoopOut where
  reason : Option Reason := none
  code : Int := 0
  chunks : List (Nat × Nat) := []
deriving Repr, DecidableEq

/-- One pass of the evgrab.c main loop (lines 82-152): while should_exit
is unset, check the watchdog file first (missing, then stale, both exit
with status 1), then poll with a 1000 ms timeout (EINTR continues, errors
exit 1, a timeout loops back to the watchdog check), treat POLLERR and
POLLHUP on the device as an error, and on POLLIN read up to 4096 bytes
(EINTR continues, errors exit 1, EOF exits 0) and write the whole chunk
out before the next iteration (a failed write returns 1 at once).
Returns the break reason and status (none to keep looping) and the
(bytes read, bytes written) pair of a chunk handled in this pass. -/
def evStep (o : Obs) : Option (Reason × Int) × List (Nat × Nat) :=
  if o.sig then (some (.signal, 0), [])
  else if o.mtime = 0 then (some (.missing, 1), [])
  else if o.now - o.mtime > WATCHDOG_TIMEOUT_SECS then (some (.stale, 1), [])
  else if o.pollRet < 0 then
    if o.pollEINTR then (none, [])
    else (some (.pollErr, 1), [])
  else if o.pollRet = 0 then (none, [])
  else if o.revents &&& (POLLERR ||| POLLHUP) ≠ 0 then (some (.devErr, 1), [])
  else if o.revents &&& POLLIN = 0 then (none, [])
  else
    let n := readEff 4096 o.readRet
    if n < 0 then
      if o.readEINTR then (none, [])
      else (some (.readErr, 1), [])
    else if n = 0 then (some (.eof, 0), [])
    else
      let res := writeAll o.writeRets n.toNat
      if !res.1 then (some (.writeFail, 1), [(n.toNat, res.2)])
      else (none, [(n.toNat, res.2)])

/-- The evgrab.c main loop: run evStep on each observation until it breaks
or the schedule ends. -/
def loop : List Obs → LoopOut
  | [] => {}
  | o :: rest =>
    match evStep o with
    | (some (r, c), cs) => { reason := some r, code := c, chunks := cs }
    | (none, cs) =>
      let out := loop rest
      { reason := out.reason, code := out.code, chunks := cs ++ out.chunks }

/-- Input of one evgrab.c execution: whether a device argument was given
and whether open and EVIOCGRAB succeed, plus the loop schedule. -/
structure Input where
  haveDeviceArg : Bool := true
  openOk : Bool := true
  grabOk : Bool := true
  sched : List Obs := []
deriving Repr, DecidableEq

/-- Result of running evgrab.c main: the pre-loop failure exits (usage,
open failure, grab failure after which the fd is closed), a still-running
snapshot, or a terminated process carrying the loop exit reason, the exit
code, whether the code closed the device fd before returning, and the
relayed chunks. -/
inductive Result
  | usage
  | openFail
  | grabFail (fdClosed : Bool)
  | running (chunks : List (Nat × Nat))
  | exited (reason : Reason) (code : Int) (fdClosed : Bool) (chunks : List (Nat × Nat))
deriving Repr, DecidableEq

/-- evgrab.c main (lines 52-158): usage error without a device argument;
open then EVIOCGRAB, each failure returning 1 (the grab failure closes the
fd first); then the main loop.  The write-failure path closes the fd and
returns 1 directly; every other loop exit falls through to the final
close(fd) and returns the loop status, so every exit closes the fd. -/
def main (inp : Input) : Result :=
  if !inp.haveDeviceArg then .usage
  else if !inp.openOk then .openFail
  else if !inp.grabOk then .grabFail true
  else
    let out := loop inp.sched
    match out.reason with
    | none => .running out.chunks
    | some r => .exited r out.code true out.chunks

/-- The exit code of a terminated run (none while still running). -/
def exitCodeOf : Result → Option Int
  | .usage => some 1
  | .openFail => some 1
  | .grabFail _ => some 1
  | .running _ => none
  | .exited _ code _ _ => some code

/-- True when the process has terminated with the capture still held:
evgrab.c releases the grab by closing the device fd on every exit path,
so this asks for a terminated post-grab run whose fd was never closed. -/
def exitsHoldingGrab : Result → Bool
  | .grabFail fdClosed => !fdClosed
  | .exited _ _ fdClosed _ => !fdClosed
  | _ => false

end Evgrab

namespace Nw

/-- Per-iteration observations for one pass of the no-watchdog evgrab
variant: the should_exit flag at the while condition, the poll return with
its errno, the revents of the device fd and of stdout, the read return,
and the successive write return values of the write-out loop. -/
structure Obs where
  sig : Bool := false
  pollRet : Int := 1
  pollEINTR : Bool := false
  revDev : Nat := POLLIN
  revOut : Nat := 0
  readRet : Int := 0
  writeRets : List Int := []
deriving Repr, DecidableEq

/-- Why the no-watchdog loop stopped. -/
inductive Reason
  | signal
  | pollFail
  | stdoutClosed
  | readEnd
  | writeFail
deriving Repr, DecidableEq

/-- Result of a run of the no-watchdog main loop: the stop reason (none
when the schedule ran out), the final value of the loop variable n (the
last read return, used to compute the exit status), and the chunks. -/
structure LoopOut where
  reason : Option Reason := none
  lastN : Int := 0
  chunks : List (Nat × Nat) := []
deriving Repr, DecidableEq

/-- One pass of the no-watchdog evgrab main loop, carrying the loop
variable n (the last read return): while should_exit is unset, poll the
device fd for POLLIN and stdout for POLLOUT with an infinite timeout
(EINTR continues, other errors break); stdout revents containing
POLLERR, POLLHUP or POLLNVAL break first; then a device POLLIN leads to a
read of up to 4096 bytes (a return of zero or less breaks) followed by a
write-out loop that writes the whole chunk (a failed write returns 1 at
once); without POLLIN the loop just repeats.  Returns the break reason
(none to keep looping), the value of n afterwards, and the chunk handled
in this pass. -/
def nwStep (n : Int) (o : Obs) : Option Reason × Int × List (Nat × Nat) :=
  if o.sig then (some .signal, n, [])
  else if o.pollRet < 0 then
    if o.pollEINTR then (none, n, [])
    else (some .pollFail, n, [])
  else if o.revOut &&& (POLLERR ||| POLLHUP ||| POLLNVAL) ≠ 0 then
    (some .stdoutClosed, n, [])
  else if o.revDev &&& POLLIN ≠ 0 then
    let m := readEff 4096 o.readRet
    if m ≤ 0 then (some .readEnd, m, [])
    else
      let res := Evgrab.writeAll o.writeRets m.toNat
      if !res.1 then (some .writeFail, m, [(m.toNat, res.2)])
      else (none, m, [(m.toNat, res.2)])
  else (none, n, [])

/-- The no-watchdog evgrab main loop: run nwStep on each observation,
threading the loop variable n, until it breaks or the schedule ends. -/
def loop (n : Int) : List Obs → LoopOut
  | [] => { lastN := n }
  | o :: rest =>
    match nwStep n o with
    | (some r, m, cs) => { reason := some r, lastN := m, chunks := cs }
    | (none, m, cs) =>
      let out := loop m rest
      { reason := out.reason, lastN := out.lastN, chunks := cs ++ out.chunks }

/-- The return value of the no-watchdog main for a given loop exit: the
write-failure path returns 1 directly; the signal path has should_exit
set, so the final expression (n less than 0 and not should_exit) yields 0;
every other break returns 1 exactly when the last read returned an
error. -/
def exitCode : Option Reason → Int → Int
  | some .writeFail, _ => 1
  | some .signal, _ => 0
  | _, n => if n < 0 then 1 else 0

/-- Input of one execution of the no-watchdog variant. -/
structure Input where
  haveDeviceArg : Bool := true
  openOk : Bool := true
  grabOk : Bool := true
  sched : List Obs := []
deriving Repr, DecidableEq

/-- Result of running the no-watchdog variant: pre-loop failures, a
still-running snapshot, or a terminated process (every exit path closes
the device fd). -/
inductive Result
  | usage
  | openFail
  | grabFail (fdClosed : Bool)
  | running (chunks : List (Nat × Nat))
  | exited (reason : Reason) (code : Int) (fdClosed : Bool) (chunks : List (Nat × Nat))
deriving Repr, DecidableEq

/-- Main of the no-watchdog variant: usage, open and grab failures as in
evgrab.c, then the loop starting with n = 0; the write-failure path closes
the fd and returns 1, every other exit falls through to close(fd) and the
final status expression. -/
def main (inp : Input) : Result :=
  if !inp.haveDeviceArg then .usage
  else if !inp.openOk then .openFail
  else if !inp.grabOk then .grabFail true
  else
    let out := loop 0 inp.sched
    match out.reason with
    | none => .running out.chunks
    | some r => .exited r (exitCode (some r) out.lastN) true out.chunks

/-- True when the process has terminated with the capture still held. -/
def exitsHoldingGrab : Result → Bool
  | .grabFail fdClosed => !fdClosed
  | .exited _ _ fdClosed _ => !fdClosed
  | _ => false

end Nw

namespace Grabber

/-- A relay loop that has not stopped on a prefix continues into the rest
of the schedule, relaying the chunks of both parts in order. -/
theorem loopSC_append (s : Int) (pre l : List Obs) (h : (loopSC s pre).reason = none) :
    loopSC s (pre ++ l) =
      { reason := (loopSC s l).reason,
        chunks := (loopSC s pre).chunks ++ (loopSC s l).chunks } := by
  induction pre with
  | nil => simp [loopSC]
  | cons o pre ih =>
    rcases hso : scStep s o with ⟨r, cs⟩
    cases r with
    | some r => simp [loopSC, hso] at h
    | none =>
      simp only [List.cons_append, loopSC, hso, List.append_eq] at h ⊢
      rw [ih h]
      simp [List.append_assoc]

/-- The blocking-loop version of loopSC_append. -/
theorem loopB_append (pre l : List Obs) (h : (loopB pre).reason = none) :
    loopB (pre ++ l) =
      { reason := (loopB l).reason,
        chunks := (loopB pre).chunks ++ (loopB l).chunks } := by
  induction pre with
  | nil => simp [loopB]
  | cons o pre ih =>
    rcases hso : bStep o with ⟨r, cs⟩
    cases r with
    | some r => simp [loopB, hso] at h
    | none =>
      simp only [List.cons_append, loopB, hso, List.append_eq] at h ⊢
      rw [ih h]
      simp [List.append_assoc]

/-- The blocking loop can only break on a signal, end of stream or a
write failure: there is no poll and no staleness check in it. -/
theorem bStep_reasons (o : Obs) (r : Reason) (cs : List Nat) (h : bStep o = (some r, cs)) :
    r = .signal ∨ r = .readEnd ∨ r = .writeFail := by
  simp only [bStep, relayStep, clampWrite] at h
  repeat' split at h
  all_goals simp_all

/-- Lifted to whole runs of the blocking loop. -/
theorem loopB_reasons (sched : List Obs) :
    (loopB sched).reason = none ∨ (loopB sched).reason = some .signal ∨
    (loopB sched).reason = some .readEnd ∨ (loopB sched).reason = some .writeFail := by
  induction sched with
  | nil => simp [loopB]
  | cons o rest ih =>
    rcases hso : bStep o with ⟨r, cs⟩
    cases r with
    | some r =>
      have hr := bStep_reasons o r cs hso
      simp only [loopB, hso]
      rcases hr with h | h | h <;> simp [h]
    | none => simpa only [loopB, hso] using ih

/-- The self-check loop breaks for staleness only out of a poll timeout:
a pass whose poll returned data or an error never consults the alive
file. -/
theorem scStep_stale_only_on_timeout (s : Int) (o : Obs) (cs : List Nat)
    (h : scStep s o = (some .stale, cs)) : o.pollRet = 0 := by
  simp only [scStep, relayStep, clampWrite] at h
  repeat' split at h
  all_goals simp_all

/-- Lifted to whole runs: a schedule in which poll never times out cannot
end in a staleness break, no matter how old the alive file is. -/
theorem loopSC_busy_no_stale (s : Int) (sched : List Obs)
    (h : ∀ o ∈ sched, o.pollRet ≠ 0) : (loopSC s sched).reason ≠ some .stale := by
  induction sched with
  | nil => simp [loopSC]
  | cons o rest ih =>
    rcases hso : scStep s o with ⟨r, cs⟩
    cases r with
    | some r =>
      simp only [loopSC, hso]
      intro hr
      simp only [Option.some.injEq] at hr
      subst hr
      exact h o (List.mem_cons_self o rest) (scStep_stale_only_on_timeout s o cs hso)
    | none =>
      simp only [loopSC, hso]
      exact ih (fun x hx => h x (List.mem_cons_of_mem o hx))

/-- A pass whose poll timed out with a stale alive file breaks with the
staleness reason at once. -/
theorem scStep_idle_stale (s : Int) (o : Obs) (hsig : o.sig = false) (hp : o.pollRet = 0)
    (hst : alive_file_stale o.aliveMtime o.now s = true) : scStep s o = (some .stale, []) := by
  simp [scStep, hsig, hp, hst]

/-- Arguments not containing the --alive-file flag leave the alive file
unset, whatever else they contain. -/
theorem parseArgs_no_alive (args : List String) (a : Args) :
    "--alive-file" ∉ args → (parseArgs args a).aliveFile = a.aliveFile := by
  induction args, a using parseArgs.induct with
  | case1 v rest a ih =>
    intro h
    simp only [parseArgs]
    exact ih (fun hm => h (List.mem_cons_of_mem _ (List.mem_cons_of_mem _ hm)))
  | case2 v rest a ih =>
    intro h
    simp only [parseArgs]
    exact ih (fun hm => h (List.mem_cons_of_mem _ (List.mem_cons_of_mem _ hm)))
  | case3 v rest a ih =>
    intro h
    exact absurd (List.mem_cons_self _ _) h
  | case4 v rest a ih =>
    intro h
    simp only [parseArgs]
    exact ih (fun hm => h (List.mem_cons_of_mem _ (List.mem_cons_of_mem _ hm)))
  | case5 head rest a h1 h2 h3 h4 ih =>
    intro h
    rw [parseArgs.eq_5 a head rest h1 h2 h3 h4]
    exact ih (fun hm => h (List.mem_cons_of_mem _ hm))
  | case6 a =>
    intro h
    simp [parseArgs]

end Grabber

namespace Evgrab

/-- The write-out loop never reports more bytes written than requested. -/
theorem writeAll_le (ws : List Int) (r : Nat) : (writeAll ws r).2 ≤ r := by
  induction ws generalizing r with
  | nil => cases r <;> simp [writeAll]
  | cons w ws ih =>
    cases r with
    | zero => simp [writeAll]
    | succ r =>
      simp only [writeAll]
      by_cases hw : w ≤ 0
      · simp [hw]
      · simp only [if_neg hw]
        have h1 : min w.toNat (r + 1) ≤ r + 1 := Nat.min_le_right _ _
        have h2 := ih (r + 1 - min w.toNat (r + 1))
        omega

/-- A successful run of the write-out loop wrote every requested byte. -/
theorem writeAll_complete (ws : List Int) (r : Nat) (h : (writeAll ws r).1 = true) :
    (writeAll ws r).2 = r := by
  induction ws generalizing r with
  | nil =>
    cases r with
    | zero => simp [writeAll]
    | succ r => simp [writeAll] at h
  | cons w ws ih =>
    cases r with
    | zero => simp [writeAll]
    | succ r =>
      simp only [writeAll] at h ⊢
      by_cases hw : w ≤ 0
      · simp [hw] at h
      · simp only [if_neg hw] at h ⊢
        have h1 : min w.toNat (r + 1) ≤ r + 1 := Nat.min_le_right _ _
        have h2 := ih (r + 1 - min w.toNat (r + 1)) h
        omega

/-- An evgrab loop that has not stopped on a prefix continues into the
rest of the schedule, relaying the chunks of both parts in order. -/
theorem loop_append (pre l : List Obs) (h : (loop pre).reason = none) :
    loop (pre ++ l) =
      { reason := (loop l).reason, code := (loop l).code,
        chunks := (loop pre).chunks ++ (loop l).chunks } := by
  induction pre with
  | nil => simp [loop]
  | cons o pre ih =>
    rcases hso : evStep o with ⟨x, cs⟩
    cases x with
    | some rc => simp [loop, hso] at h
    | none =>
      simp only [List.cons_append, loop, hso, List.append_eq] at h ⊢
      rw [ih h]
      simp [List.append_assoc]

set_option maxHeartbeats 1000000 in
/-- The status an evgrab loop pass breaks with is 0 exactly for the signal
and end-of-file exits; every error exit carries status 1. -/
theorem evStep_exit_code (o : Obs) (r : Reason) (c : Int) (cs : List (Nat × Nat))
    (h : evStep o = (some (r, c), cs)) : c = 0 ↔ (r = .signal ∨ r = .eof) := by
  simp only [evStep] at h
  repeat' split at h
  all_goals try simp_all
  all_goals
    obtain ⟨⟨h1, h2⟩, h3⟩ := h
    subst h1
    subst h2
    simp

/-- Lifted to whole loop runs. -/
theorem loop_code (sched : List Obs) (r : Reason) (h : (loop sched).reason = some r) :
    ((loop sched).code = 0 ↔ (r = .signal ∨ r = .eof)) := by
  induction sched with
  | nil => simp [loop] at h
  | cons o rest ih =>
    rcases hso : evStep o with ⟨x, cs⟩
    cases x with
    | some rc =>
      obtain ⟨r0, c0⟩ := rc
      simp only [loop, hso] at h ⊢
      have hr : r0 = r := by simpa using h
      subst hr
      exact evStep_exit_code o r0 c0 cs hso
    | none =>
      simp only [loop, hso] at h ⊢
      exact ih h

/-- A pass observing should_exit unset, an existing watchdog file and an
age strictly beyond the timeout breaks with the stale reason, status 1,
whatever poll, read and write would have reported. -/
theorem evStep_stale (o : Obs) (h1 : o.sig = false) (h2 : o.mtime ≠ 0)
    (h3 : o.now - o.mtime > WATCHDOG_TIMEOUT_SECS) : evStep o = (some (.stale, 1), []) := by
  simp [evStep, h1, h2, h3]

/-- A pass observing a missing watchdog file breaks with status 1. -/
theorem evStep_missing (o : Obs) (h1 : o.sig = false) (h2 : o.mtime = 0) :
    evStep o = (some (.missing, 1), []) := by
  simp [evStep, h1, h2]

/-- An idle pass (poll timeout) with a fresh enough watchdog file just
loops. -/
theorem evStep_idle_continue (o : Obs) (h1 : o.sig = false) (h2 : o.mtime ≠ 0)
    (h3 : o.now - o.mtime ≤ WATCHDOG_TIMEOUT_SECS) (h4 : o.pollRet = 0) :
    evStep o = (none, []) := by
  simp [evStep, h1, h2, h4]
  omega

set_option maxHeartbeats 1000000 in
/-- A pass whose watchdog file exists and is at most the timeout old
never breaks for staleness or absence. -/
theorem evStep_fresh_no_watchdog_exit (o : Obs) (r : Reason) (c : Int) (cs : List (Nat × Nat))
    (hm : 1 ≤ o.mtime) (hf : o.now - o.mtime ≤ WATCHDOG_TIMEOUT_SECS)
    (h : evStep o = (some (r, c), cs)) : r ≠ .stale ∧ r ≠ .missing := by
  simp only [evStep] at h
  repeat' split at h
  all_goals try simp_all
  all_goals try (exfalso; omega)
  all_goals
    obtain ⟨⟨h1, h2⟩, h3⟩ := h
    subst h1
    simp

/-- Lifted to whole loop runs: while every pass sees a marker at most the
timeout old, the loop never stops for the watchdog. -/
theorem loop_fresh_no_watchdog_exit (sched : List Obs)
    (h : ∀ o ∈ sched, 1 ≤ o.mtime ∧ o.now - o.mtime ≤ WATCHDOG_TIMEOUT_SECS) :
    (loop sched).reason ≠ some .stale ∧ (loop sched).reason ≠ some .missing := by
  induction sched with
  | nil => simp [loop]
  | cons o rest ih =>
    rcases hso : evStep o with ⟨x, cs⟩
    cases x with
    | some rc =>
      obtain ⟨r0, c0⟩ := rc
      have hm := h o (List.mem_cons_self o rest)
      have hne := evStep_fresh_no_watchdog_exit o r0 c0 cs hm.1 hm.2 hso
      simp only [loop, hso]
      constructor <;> (intro hr; simp only [Option.some.injEq] at hr; subst hr)
      · exact hne.1 rfl
      · exact hne.2 rfl
    | none =>
      simp only [loop, hso]
      exact ih (fun x hx => h x (List.mem_cons_of_mem o hx))

set_option maxHeartbeats 1000000 in
/-- Per-chunk bounds for one evgrab pass: each chunk was read by one call
reading at most the 4096-byte buffer, and never reports more bytes
written than read. -/
theorem evStep_chunk_bounds (o : Obs) (x : Option (Reason × Int)) (cs : List (Nat × Nat))
    (h : evStep o = (x, cs)) : ∀ c ∈ cs, c.1 ≤ 4096 ∧ c.2 ≤ c.1 := by
  have hw := writeAll_le o.writeRets (readEff 4096 o.readRet).toNat
  have hr : (readEff 4096 o.readRet).toNat ≤ 4096 := by
    simp only [readEff]
    split <;> omega
  simp only [evStep] at h
  repeat' split at h
  all_goals simp only [Prod.mk.injEq] at h
  all_goals obtain ⟨h1, h2⟩ := h
  all_goals subst h2
  all_goals simp_all

/-- Lifted to whole loop runs. -/
theorem loop_chunk_bounds (sched : List Obs) :
    ∀ c ∈ (loop sched).chunks, c.1 ≤ 4096 ∧ c.2 ≤ c.1 := by
  induction sched with
  | nil => simp [loop]
  | cons o rest ih =>
    rcases hso : evStep o with ⟨x, cs⟩
    have hstep := evStep_chunk_bounds o x cs hso
    cases x with
    | some rc =>
      simp only [loop, hso]
      exact hstep
    | none =>
      simp only [loop, hso]
      intro c hc
      rcases List.mem_append.mp hc with hc | hc
      · exact hstep c hc
      · exact ih c hc

set_option maxHeartbeats 1000000 in
/-- A pass the loop continues after has relayed its whole chunk: the
write-out loop completed before the next read. -/
theorem evStep_continue_chunk_complete (o : Obs) (cs : List (Nat × Nat))
    (h : evStep o = (none, cs)) : ∀ c ∈ cs, c.2 = c.1 := by
  simp only [evStep] at h
  repeat' split at h
  all_goals simp only [Prod.mk.injEq] at h
  all_goals obtain ⟨h1, h2⟩ := h
  all_goals first
    | (subst h2
       intro c hc
       simp only [List.mem_singleton] at hc
       subst hc
       refine writeAll_complete _ _ ?_
       simp_all)
    | simp_all

set_option maxHeartbeats 1000000 in
/-- A loop pass breaking for any reason other than a write failure
relayed nothing in that pass. -/
theorem evStep_exit_chunks (o : Obs) (r : Reason) (c : Int) (cs : List (Nat × Nat))
    (h : evStep o = (some (r, c), cs)) (hr : r ≠ .writeFail) : cs = [] := by
  simp only [evStep] at h
  repeat' split at h
  all_goals simp only [Prod.mk.injEq, Option.some.injEq] at h
  all_goals simp_all

set_option maxHeartbeats 1000000 in
/-- A write-failure break leaves exactly one, possibly partial, chunk. -/
theorem evStep_writeFail_chunk (o : Obs) (c0 : Int) (cs : List (Nat × Nat))
    (h : evStep o = (some (.writeFail, c0), cs)) :
    ∃ p : Nat × Nat, cs = [p] ∧ p.2 ≤ p.1 := by
  have hw := writeAll_le o.writeRets (readEff 4096 o.readRet).toNat
  simp only [evStep] at h
  repeat' split at h
  all_goals simp only [Prod.mk.injEq, Option.some.injEq] at h
  all_goals first
    | (obtain ⟨h1, h2⟩ := h
       exact ⟨_, h2.symm, hw⟩)
    | simp_all

/-- In a run that did not stop on a write failure, every chunk was fully
relayed before the next read. -/
theorem loop_chunk_complete (sched : List Obs)
    (h : (loop sched).reason ≠ some .writeFail) :
    ∀ c ∈ (loop sched).chunks, c.2 = c.1 := by
  induction sched with
  | nil => simp [loop]
  | cons o rest ih =>
    rcases hso : evStep o with ⟨x, cs⟩
    cases x with
    | some rc =>
      obtain ⟨r0, c0⟩ := rc
      simp only [loop, hso] at h ⊢
      have hr0 : r0 ≠ .writeFail := by
        intro he
        subst he
        exact h rfl
      simp [evStep_exit_chunks o r0 c0 cs hso hr0]
    | none =>
      simp only [loop, hso] at h ⊢
      intro c hc
      rcases List.mem_append.mp hc with hc | hc
      · exact evStep_continue_chunk_complete o cs hso c hc
      · exact ih h c hc

/-- In a run that stopped on a write failure, every chunk but the final
one was fully relayed, and the final one wrote at most what was read. -/
theorem loop_writeFail_chunks (sched : List Obs)
    (h : (loop sched).reason = some .writeFail) :
    ∃ cs fin, (loop sched).chunks = cs ++ [fin] ∧
      (∀ c ∈ cs, c.2 = c.1) ∧ fin.2 ≤ fin.1 := by
  induction sched with
  | nil => simp [loop] at h
  | cons o rest ih =>
    rcases hso : evStep o with ⟨x, cs0⟩
    cases x with
    | some rc =>
      obtain ⟨r0, c0⟩ := rc
      simp only [loop, hso] at h ⊢
      have hr : r0 = .writeFail := by simpa using h
      subst hr
      obtain ⟨p, hp, hle⟩ := evStep_writeFail_chunk o c0 cs0 hso
      exact ⟨[], p, by simpa using hp, by simp, hle⟩
    | none =>
      simp only [loop, hso] at h ⊢
      obtain ⟨cs1, fin, hc, hall, hle⟩ := ih h
      refine ⟨cs0 ++ cs1, fin, ?_, ?_, hle⟩
      · rw [hc, List.append_assoc]
      · intro c hc2
        rcases List.mem_append.mp hc2 with hx | hx
        · exact evStep_continue_chunk_complete o cs0 hso c hx
        · exact hall c hx

end Evgrab

namespace Grabber

/-- A read that returned data followed by a write returning anything but
the byte count read breaks the relay body at once, emitting only the
bytes that write reported. -/
theorem relayStep_short_write (o : Obs) (hn : 0 < readEff 16 o.readRet)
    (hw : clampWrite (readEff 16 o.readRet) o.writeRet ≠ readEff 16 o.readRet) :
    relayStep o = (some .writeFail, [(clampWrite (readEff 16 o.readRet) o.writeRet).toNat]) := by
  simp only [relayStep]
  rw [if_neg (by omega), if_pos hw]

end Grabber

namespace Nw

/-- A no-watchdog loop that has not stopped on a prefix continues into
the rest of the schedule with its carried last read value. -/
theorem nwLoop_append (n : Int) (pre l : List Obs) (h : (loop n pre).reason = none) :
    loop n (pre ++ l) =
      { reason := (loop (loop n pre).lastN l).reason,
        lastN := (loop (loop n pre).lastN l).lastN,
        chunks := (loop n pre).chunks ++ (loop (loop n pre).lastN l).chunks } := by
  induction pre generalizing n with
  | nil => simp [loop]
  | cons o pre ih =>
    rcases hso : nwStep n o with ⟨r, m, cs⟩
    cases r with
    | some r => simp [loop, hso] at h
    | none =>
      simp only [List.cons_append, loop, hso, List.append_eq] at h ⊢
      rw [ih m h]
      simp [List.append_assoc]

/-- A pass observing no signal, a non-negative poll return and stdout
revents reporting POLLERR, POLLHUP or POLLNVAL breaks with the
stdout-closed reason before any read. -/
theorem nwStep_stdoutClosed (n : Int) (o : Obs) (h1 : o.sig = false)
    (h2 : 0 ≤ o.pollRet) (h3 : o.revOut &&& (POLLERR ||| POLLHUP ||| POLLNVAL) ≠ 0) :
    nwStep n o = (some .stdoutClosed, n, []) := by
  simp [nwStep, h1, h3, show ¬o.pollRet < 0 by omega]

set_option maxHeartbeats 1000000 in
/-- Per-chunk bounds for one pass of the no-watchdog variant: each chunk
was read by one call reading at most the 4096-byte buffer and never
reports more bytes written than read. -/
theorem nwStep_chunk_bounds (n : Int) (o : Obs) (x : Option Reason) (m : Int)
    (cs : List (Nat × Nat)) (h : nwStep n o = (x, m, cs)) :
    ∀ c ∈ cs, c.1 ≤ 4096 ∧ c.2 ≤ c.1 := by
  have hw := Evgrab.writeAll_le o.writeRets (readEff 4096 o.readRet).toNat
  have hr : (readEff 4096 o.readRet).toNat ≤ 4096 := by
    simp only [readEff]
    split <;> omega
  simp only [nwStep] at h
  repeat' split at h
  all_goals simp only [Prod.mk.injEq] at h
  all_goals obtain ⟨h1, h2, h3⟩ := h
  all_goals subst h3
  all_goals simp_all

/-- Lifted to whole runs of the no-watchdog loop. -/
theorem nwLoop_chunk_bounds (n : Int) (sched : List Obs) :
    ∀ c ∈ (loop n sched).chunks, c.1 ≤ 4096 ∧ c.2 ≤ c.1 := by
  induction sched generalizing n with
  | nil => simp [loop]
  | cons o rest ih =>
    rcases hso : nwStep n o with ⟨x, m, cs⟩
    have hstep := nwStep_chunk_bounds n o x m cs hso
    cases x with
    | some r =>
      simp only [loop, hso]
      exact hstep
    | none =>
      simp only [loop, hso]
      intro c hc
      rcases List.mem_append.mp hc with hc | hc
      · exact hstep c hc
      · exact ih m c hc

set_option maxHeartbeats 1000000 in
/-- A pass the no-watchdog loop continues after has relayed its whole
chunk: the write-out loop completed before the next read. -/
theorem nwStep_continue_chunk_complete (n : Int) (o : Obs) (m : Int) (cs : List (Nat × Nat))
    (h : nwStep n o = (none, m, cs)) : ∀ c ∈ cs, c.2 = c.1 := by
  simp only [nwStep] at h
  repeat' split at h
  all_goals simp only [Prod.mk.injEq] at h
  all_goals obtain ⟨h1, h2, h3⟩ := h
  all_goals first
    | (subst h3
       intro c hc
       simp only [List.mem_singleton] at hc
       subst hc
       refine Evgrab.writeAll_complete _ _ ?_
       simp_all)
    | simp_all

set_option maxHeartbeats 1000000 in
/-- A no-watchdog pass breaking for any reason other than a write
failure relayed nothing in that pass. -/
theorem nwStep_exit_chunks (n : Int) (o : Obs) (r : Reason) (m : Int) (cs : List (Nat × Nat))
    (h : nwStep n o = (some r, m, cs)) (hr : r ≠ .writeFail) : cs = [] := by
  simp only [nwStep] at h
  repeat' split at h
  all_goals simp only [Prod.mk.injEq, Option.some.injEq] at h
  all_goals simp_all

set_option maxHeartbeats 1000000 in
/-- A write-failure break of the no-watchdog loop leaves exactly one,
possibly partial, chunk. -/
theorem nwStep_writeFail_chunk (n : Int) (o : Obs) (m : Int) (cs : List (Nat × Nat))
    (h : nwStep n o = (some .writeFail, m, cs)) :
    ∃ p : Nat × Nat, cs = [p] ∧ p.2 ≤ p.1 := by
  have hw := Evgrab.writeAll_le o.writeRets (readEff 4096 o.readRet).toNat
  simp only [nwStep] at h
  repeat' split at h
  all_goals simp only [Prod.mk.injEq, Option.some.injEq] at h
  all_goals first
    | (obtain ⟨h1, h2, h3⟩ := h
       exact ⟨_, h3.symm, hw⟩)
    | simp_all

/-- In a run of the no-watchdog loop that did not stop on a write
failure, every chunk was fully relayed before the next read. -/
theorem nwLoop_chunk_complete (n : Int) (sched : List Obs)
    (h : (loop n sched).reason ≠ some .writeFail) :
    ∀ c ∈ (loop n sched).chunks, c.2 = c.1 := by
  induction sched generalizing n with
  | nil => simp [loop]
  | cons o rest ih =>
    rcases hso : nwStep n o with ⟨x, m, cs⟩
    cases x with
    | some r =>
      simp only [loop, hso] at h ⊢
      have hr0 : r ≠ .writeFail := by
        intro he
        subst he
        exact h rfl
      simp [nwStep_exit_chunks n o r m cs hso hr0]
    | none =>
      simp only [loop, hso] at h ⊢
      intro c hc
      rcases List.mem_append.mp hc with hc | hc
      · exact nwStep_continue_chunk_complete n o m cs hso c hc
      · exact ih m h c hc

/-- In a run of the no-watchdog loop that stopped on a write failure,
every chunk but the final one was fully relayed, and the final one wrote
at most what was read. -/
theorem nwLoop_writeFail_chunks (n : Int) (sched : List Obs)
    (h : (loop n sched).reason = some .writeFail) :
    ∃ cs fin, (loop n sched).chunks = cs ++ [fin] ∧
      (∀ c ∈ cs, c.2 = c.1) ∧ fin.2 ≤ fin.1 := by
  induction sched generalizing n with
  | nil => simp [loop] at h
  | cons o rest ih =>
    rcases hso : nwStep n o with ⟨x, m, cs0⟩
    cases x with
    | some r =>
      simp only [loop, hso] at h ⊢
      have hr : r = .writeFail := by simpa using h
      subst hr
      obtain ⟨p, hp, hle⟩ := nwStep_writeFail_chunk n o m cs0 hso
      exact ⟨[], p, by simpa using hp, by simp, hle⟩
    | none =>
      simp only [loop, hso] at h ⊢
      obtain ⟨cs1, fin, hc, hall, hle⟩ := ih m h
      refine ⟨cs0 ++ cs1, fin, ?_, ?_, hle⟩
      · rw [hc, List.append_assoc]
      · intro c hc2
        rcases List.mem_append.mp hc2 with hx | hx
        · exact nwStep_continue_chunk_complete n o m cs0 hso c hx
        · exact hall c hx

end Nw

namespace Grabber

/-- Every terminated grabber.c process released its capture: the normal
return path ran release_grab and close, and the signal path ended the
process, whose kernel cleanup closes the device fd. -/
theorem main_exited_released (inp : Input) (o : Outcome)
    (h : main inp = .exited o) :
    (o.grabReleasedByIoctl || o.fdClosedByCode || o.kernelCleanup) = true := by
  unfold main at h
  repeat' split at h
  all_goals try simp_all
  all_goals repeat' split at h
  all_goals try simp_all
  all_goals (subst h; simp)

/-- Every terminated post-grab grabber.c process returned 0: both the
signal _exit and the fallthrough after the relay loop use status 0. -/
theorem main_exited_code_zero (inp : Input) (o : Outcome)
    (h : main inp = .exited o) : o.exitCode = 0 := by
  unfold main at h
  repeat' split at h
  all_goals try simp_all
  all_goals repeat' split at h
  all_goals try simp_all
  all_goals (subst h; simp)

end Grabber

namespace Evgrab

/-- Every terminated post-grab evgrab process closed its device fd. -/
theorem main_exited_fdClosed (inp : Input) (r : Reason) (c : Int) (fd : Bool)
    (cs : List (Nat × Nat)) (h : main inp = .exited r c fd cs) : fd = true := by
  unfold main at h
  repeat' split at h
  all_goals try simp_all
  all_goals repeat' split at h
  all_goals simp_all

/-- An evgrab grab failure closed the device fd before returning 1. -/
theorem main_grabFail_fdClosed (inp : Input) (fd : Bool)
    (h : main inp = .grabFail fd) : fd = true := by
  unfold main at h
  repeat' split at h
  all_goals try simp_all
  all_goals repeat' split at h
  all_goals simp_all

end Evgrab

namespace Nw

/-- Every terminated post-grab run of the no-watchdog variant closed its
device fd. -/
theorem nwMain_exited_fdClosed (inp : Input) (r : Reason) (c : Int) (fd : Bool)
    (cs : List (Nat × Nat)) (h : main inp = .exited r c fd cs) : fd = true := by
  unfold main at h
  repeat' split at h
  all_goals try simp_all
  all_goals repeat' split at h
  all_goals simp_all

/-- A grab failure of the no-watchdog variant closed the device fd. -/
theorem nwMain_grabFail_fdClosed (inp : Input) (fd : Bool)
    (h : main inp = .grabFail fd) : fd = true := by
  unfold main at h
  repeat' split at h
  all_goals try simp_all
  all_goals repeat' split at h
  all_goals simp_all

end Nw

namespace Grabber

/-- The relay body emits at most 16 bytes per write: the read is bounded
by the 16-byte buffer and the write return is clamped by its count. -/
theorem relayStep_chunk_le (o : Obs) (x : Option Reason) (cs : List Nat)
    (h : relayStep o = (x, cs)) : ∀ c ∈ cs, c ≤ 16 := by
  simp only [relayStep, clampWrite, readEff] at h
  repeat' split at h
  all_goals simp only [Prod.mk.injEq] at h
  all_goals obtain ⟨h1, h2⟩ := h
  all_goals subst h2
  all_goals simp_all
  all_goals omega

/-- Self-check loop passes emit at most 16 bytes each. -/
theorem scStep_chunk_le (s : Int) (o : Obs) (x : Option Reason) (cs : List Nat)
    (h : scStep s o = (x, cs)) : ∀ c ∈ cs, c ≤ 16 := by
  simp only [scStep] at h
  repeat' split at h
  all_goals first
    | (exact relayStep_chunk_le o x cs h)
    | (simp only [Prod.mk.injEq] at h
       obtain ⟨h1, h2⟩ := h
       subst h2
       simp)

/-- Blocking loop passes emit at most 16 bytes each. -/
theorem bStep_chunk_le (o : Obs) (x : Option Reason) (cs : List Nat)
    (h : bStep o = (x, cs)) : ∀ c ∈ cs, c ≤ 16 := by
  simp only [bStep] at h
  split at h
  · simp only [Prod.mk.injEq] at h
    obtain ⟨h1, h2⟩ := h
    subst h2
    simp
  · exact relayStep_chunk_le o x cs h

/-- Every chunk a self-check loop run relays is at most one 16-byte
record. -/
theorem loopSC_chunk_le (s : Int) (sched : List Obs) :
    ∀ c ∈ (loopSC s sched).chunks, c ≤ 16 := by
  induction sched with
  | nil => simp [loopSC]
  | cons o rest ih =>
    rcases hso : scStep s o with ⟨x, cs⟩
    have hstep := scStep_chunk_le s o x cs hso
    cases x with
    | some r =>
      simp only [loopSC, hso]
      exact hstep
    | none =>
      simp only [loopSC, hso]
      intro c hc
      rcases List.mem_append.mp hc with hc | hc
      · exact hstep c hc
      · exact ih c hc

/-- Every chunk a blocking loop run relays is at most one 16-byte
record. -/
theorem loopB_chunk_le (sched : List Obs) :
    ∀ c ∈ (loopB sched).chunks, c ≤ 16 := by
  induction sched with
  | nil => simp [loopB]
  | cons o rest ih =>
    rcases hso : bStep o with ⟨x, cs⟩
    have hstep := bStep_chunk_le o x cs hso
    cases x with
    | some r =>
      simp only [loopB, hso]
      exact hstep
    | none =>
      simp only [loopB, hso]
      intro c hc
      rcases List.mem_append.mp hc with hc | hc
      · exact hstep c hc
      · exact ih c hc

end Grabber

/-- C1: For every terminating execution of an agent that successfully
acquired the exclusive capture, the capture is released by the time the
process ends, on every exit path - signal, read and write errors, EOF,
stdout closure and liveness timeout.  In grabber.c the normal return runs
release_grab (ioctl 0) and close in cleanup, while the signal handler
calls _exit(0) and relies on kernel cleanup of the open fd; both evgrab
variants close the device fd on every return after the grab.  A still
running loop has not terminated and the pre-grab failure exits never held
the capture (the grab failure of evgrab closes the fd it opened). -/
theorem C1_release_on_every_exit :
    (∀ inp : Grabber.Input, Grabber.exitsHoldingGrab (Grabber.main inp) = false) ∧
    (∀ inp : Evgrab.Input, Evgrab.exitsHoldingGrab (Evgrab.main inp) = false) ∧
    (∀ inp : Nw.Input, Nw.exitsHoldingGrab (Nw.main inp) = false) := by
  refine ⟨fun inp => ?_, fun inp => ?_, fun inp => ?_⟩
  · rcases h : Grabber.main inp with _ | _ | _ | ⟨pc, cs⟩ | o
    · rfl
    · rfl
    · rfl
    · rfl
    · have hr := Grabber.main_exited_released inp o h
      simp [Grabber.exitsHoldingGrab, hr]
  · rcases h : Evgrab.main inp with _ | _ | fd | cs | ⟨r, c, fd, cs⟩
    · rfl
    · rfl
    · have hr := Evgrab.main_grabFail_fdClosed inp fd h
      simp [Evgrab.exitsHoldingGrab, hr]
    · rfl
    · have hr := Evgrab.main_exited_fdClosed inp r c fd cs h
      simp [Evgrab.exitsHoldingGrab, hr]
  · rcases h : Nw.main inp with _ | _ | fd | cs | ⟨r, c, fd, cs⟩
    · rfl
    · rfl
    · have hr := Nw.nwMain_grabFail_fdClosed inp fd h
      simp [Nw.exitsHoldingGrab, hr]
    · rfl
    · have hr := Nw.nwMain_exited_fdClosed inp r c fd cs h
      simp [Nw.exitsHoldingGrab, hr]

/-- Schedule refuting C2 on rm-mouse-grabber: the alive file was last
refreshed at time 0 and never again, and device events keep arriving (one
each second, so poll always returns data and never times out) for 12
seconds against a 5 second staleness threshold. -/
def c2busySched : List Grabber.Obs :=
  (List.range 12).map (fun i =>
    { now := (i : Int) + 1, aliveMtime := some 0, pollRet := 1,
      revents := POLLIN, readRet := 16, writeRet := 16 })

/-- The corresponding invocation of rm-mouse-grabber with self-check on. -/
def c2busyInput : Grabber.Input :=
  { argv := ["--device", "d", "--pidfile", "p", "--alive-file", "a", "--stale-sec", "5"],
    sched := c2busySched }

/-- C2 counterexample: the marker is stale from time 6 on (second
conjunct: it already tests stale at time 12), yet after 12 seconds of
continuous device events the self-check loop is still running and has
relayed every event.  grabber.c consults the alive file only when poll
times out, so staleness is not re-checked while device events keep
arriving, and the agent does not exit within stale-sec seconds of the
last refresh. -/
theorem C2_counterexample :
    Grabber.main c2busyInput = .running true (List.replicate 12 16) ∧
    Grabber.alive_file_stale (some 0) 12 5 = true := by
  constructor
  · decide
  · decide

/-- C2 as amended: in rm-mouse-grabber the staleness condition is
re-checked only when the 1 second poll times out - an idle check with a
stale marker exits at once (first conjunct), but a schedule in which poll
always returns data never produces the staleness exit no matter how old
the marker is (second conjunct), so continuous device events postpone
the staleness exit indefinitely.  In evgrab the watchdog is re-checked at
the top of every pass, idle or busy, and the loop exits with status 1 at
the first pass observing an age strictly beyond the threshold (third
conjunct). -/
theorem C2_amended_staleness_check :
    (∀ (s : Int) (pre : List Grabber.Obs) (o : Grabber.Obs) (rest : List Grabber.Obs),
        (Grabber.loopSC s pre).reason = none → o.sig = false → o.pollRet = 0 →
        Grabber.alive_file_stale o.aliveMtime o.now s = true →
        Grabber.loopSC s (pre ++ o :: rest) =
          { reason := some .stale, chunks := (Grabber.loopSC s pre).chunks }) ∧
    (∀ (s : Int) (sched : List Grabber.Obs), (∀ o ∈ sched, o.pollRet ≠ 0) →
        (Grabber.loopSC s sched).reason ≠ some .stale) ∧
    (∀ (pre : List Evgrab.Obs) (o : Evgrab.Obs) (rest : List Evgrab.Obs),
        (Evgrab.loop pre).reason = none → o.sig = false → o.mtime ≠ 0 →
        o.now - o.mtime > WATCHDOG_TIMEOUT_SECS →
        Evgrab.loop (pre ++ o :: rest) =
          { reason := some .stale, code := 1, chunks := (Evgrab.loop pre).chunks }) := by
  refine ⟨fun s pre o rest h hs hp hst => ?_, Grabber.loopSC_busy_no_stale,
    fun pre o rest h hs hm hst => ?_⟩
  · rw [Grabber.loopSC_append s pre (o :: rest) h]
    simp [Grabber.loopSC, Grabber.scStep_idle_stale s o hs hp hst]
  · rw [Evgrab.loop_append pre (o :: rest) h]
    simp [Evgrab.loop, Evgrab.evStep_stale o hs hm hst]

/-- C2 witness: a single idle check at time 6 against a marker refreshed
at time 0 with a 5 second threshold breaks the loop with the staleness
reason. -/
theorem C2_witness :
    Grabber.loopSC 5 [{ sig := false, now := 6, aliveMtime := some 0, pollRet := 0 }] =
      { reason := some Grabber.Reason.stale, chunks := [] } := by
  have h := C2_amended_staleness_check.1 5 []
    { sig := false, now := 6, aliveMtime := some 0, pollRet := 0 } []
    (by decide) rfl rfl (by decide)
  simpa using h

/-- Schedule refuting C3 on rm-mouse-grabber: twenty idle checks, each
seeing a missing alive file (stat fails) at ever larger times. -/
def c3missingSched : List Grabber.Obs :=
  (List.range 20).map (fun i => { now := 1000 + (i : Int), aliveMtime := none, pollRet := 0 })

/-- The corresponding invocation with self-check enabled (default 10
second threshold). -/
def c3missingInput : Grabber.Input :=
  { argv := ["--device", "d", "--pidfile", "p", "--alive-file", "a"], sched := c3missingSched }

/-- C3 counterexample: with the marker file missing at every check,
rm-mouse-grabber is still running (holding the grab) after twenty idle
checks, because its alive_file_stale returns 0 when stat fails (second
conjunct, at an arbitrary late time) - missing is deliberately treated as
NOT stale there, the comment saying the host may not have touched the
file yet.  The claim that a missing marker is treated identically to a
stale one therefore fails on rm-mouse-grabber. -/
theorem C3_counterexample :
    Grabber.main c3missingInput = .running true [] ∧
    Grabber.alive_file_stale none 1000000 10 = false := by
  constructor
  · decide
  · decide

/-- C3 as amended: only evgrab treats a missing watchdog file as fatal -
any pass of its loop that observes a missing file (mtime 0) exits with
status 1, releasing the grab (first conjunct); rm-mouse-grabber instead
treats a missing alive file as not stale, whatever the time and the
threshold, and keeps the grab (second conjunct). -/
theorem C3_amended_missing_marker :
    (∀ (pre : List Evgrab.Obs) (o : Evgrab.Obs) (rest : List Evgrab.Obs),
        (Evgrab.loop pre).reason = none → o.sig = false → o.mtime = 0 →
        Evgrab.loop (pre ++ o :: rest) =
          { reason := some .missing, code := 1, chunks := (Evgrab.loop pre).chunks }) ∧
    (∀ now s : Int, Grabber.alive_file_stale none now s = false) := by
  refine ⟨fun pre o rest h hs hm => ?_, fun now s => rfl⟩
  rw [Evgrab.loop_append pre (o :: rest) h]
  simp [Evgrab.loop, Evgrab.evStep_missing o hs hm]

/-- C3 witness: a single evgrab pass observing a missing watchdog file
exits with the missing reason and status 1. -/
theorem C3_witness :
    Evgrab.loop [({ sig := false, now := 7, mtime := 0 } : Evgrab.Obs)] =
      { reason := some Evgrab.Reason.missing, code := 1, chunks := [] } := by
  have h := C3_amended_missing_marker.1 [] { sig := false, now := 7, mtime := 0 } []
    (by decide) rfl rfl
  simpa using h

/-- Input refuting C4 on rm-mouse-grabber: self-check enabled with a 5
second threshold, and one idle check at time 100 against a marker
refreshed at time 0. -/
def c4staleInput : Grabber.Input :=
  { argv := ["--device", "d", "--pidfile", "p", "--alive-file", "a", "--stale-sec", "5"],
    sched := [{ pollRet := 0, now := 100, aliveMtime := some 0 }] }

/-- C4 counterexample: rm-mouse-grabber exits through the stale-watchdog
path with exit code 0, not non-zero - its main returns 0 after every
break of the relay loop, I/O errors and staleness included. -/
theorem C4_counterexample :
    Grabber.main c4staleInput = .exited
      { exitCode := 0, exitKind := .normalReturn, grabReleasedByIoctl := true,
        fdClosedByCode := true, kernelCleanup := false, pidfileCreated := true,
        pidfileUnlinked := true, reason := some .stale, chunks := [] } := by
  decide

/-- C4 as amended: the claimed exit-code discipline holds of evgrab - its
loop status is 0 exactly for the signal and end-of-file exits and 1 for
every error exit, watchdog exits included (first conjunct), and a grab
failure exits with status 1 at once, with no retry (second conjunct).
rm-mouse-grabber returns 1 only for the pre-grab failures: every
post-grab exit, the stale-watchdog and I/O-error exits included, returns
0 (third conjunct), and its grab failure also exits 1 with no retry
(fourth conjunct). -/
theorem C4_amended_exit_codes :
    (∀ (sched : List Evgrab.Obs) (r : Evgrab.Reason),
        (Evgrab.loop sched).reason = some r →
        ((Evgrab.loop sched).code = 0 ↔ (r = .signal ∨ r = .eof))) ∧
    (∀ inp : Evgrab.Input, inp.haveDeviceArg = true → inp.openOk = true → inp.grabOk = false →
        Evgrab.exitCodeOf (Evgrab.main inp) = some 1) ∧
    (∀ (inp : Grabber.Input) (o : Grabber.Outcome),
        Grabber.main inp = .exited o → o.exitCode = 0) ∧
    (∀ inp : Grabber.Input,
        (Grabber.parseArgs inp.argv {}).device.isSome →
        (Grabber.parseArgs inp.argv {}).pidfile.isSome →
        inp.openOk = true → inp.grabOk = false →
        Grabber.main inp = .grabFail ∧ Grabber.exitCodeOf (Grabber.main inp) = some 1) := by
  refine ⟨Evgrab.loop_code, fun inp h1 h2 h3 => ?_, Grabber.main_exited_code_zero,
    fun inp h1 h2 h3 h4 => ?_⟩
  · simp [Evgrab.main, h1, h2, h3, Evgrab.exitCodeOf]
  · obtain ⟨d, hd⟩ := Option.isSome_iff_exists.mp h1
    obtain ⟨p, hp⟩ := Option.isSome_iff_exists.mp h2
    have hmain : Grabber.main inp = .grabFail := by
      unfold Grabber.main
      rw [if_neg (by simp [hd, hp]), if_neg (by simp [h3]), if_pos (by simp [h4])]
    refine ⟨hmain, ?_⟩
    rw [hmain]
    rfl

/-- C4 witness: an evgrab run whose EVIOCGRAB fails exits with status 1. -/
theorem C4_witness :
    Evgrab.exitCodeOf (Evgrab.main { grabOk := false }) = some 1 :=
  C4_amended_exit_codes.2.1 { grabOk := false } rfl rfl rfl

/-- Idle evgrab checks at seconds 11 through 15 against a watchdog last
refreshed at second 10. -/
def c5idleSched : List Evgrab.Obs :=
  (List.range 5).map (fun i => { now := 11 + (i : Int), mtime := 10, pollRet := 0 })

/-- C5 counterexample: with the last refresh at second 10, the checks at
seconds 11 through 15 - the whole 5 seconds the claim allows - leave
evgrab still running; only a check at second 16, six seconds after the
last refresh, takes the staleness exit, because the condition is the
strict now - mtime > 5.  Termination is therefore not within 5 seconds
of the last refresh. -/
theorem C5_counterexample :
    (Evgrab.loop c5idleSched).reason = none ∧
    Evgrab.loop [({ now := 16, mtime := 10, pollRet := 0 } : Evgrab.Obs)] =
      { reason := some .stale, code := 1, chunks := [] } := by
  constructor
  · decide
  · decide

/-- C5 as amended: under a 2 second refresh cadence with at most 1 second
of jitter per refresh, consecutive refreshes are at most 3 seconds apart
(second conjunct), so every check sees the marker at most 3 seconds old
and evgrab never takes a watchdog exit - no false self-termination (first
conjunct).  Once refreshes stop, a check at most 5 seconds past the last
refresh still continues (third conjunct) and the loop exits with status 1
at the first check strictly beyond 5 seconds (fourth conjunct): with the
1 second check interval this is 6 to 7 seconds after the last refresh,
not within 5 seconds. -/
theorem C5_amended_watchdog_timing :
    (∀ sched : List Evgrab.Obs,
        (∀ o ∈ sched, 1 ≤ o.mtime ∧ o.now - o.mtime ≤ 3) →
        (Evgrab.loop sched).reason ≠ some .stale ∧ (Evgrab.loop sched).reason ≠ some .missing) ∧
    (∀ (jit : Nat → Int) (k : Nat) (t : Int),
        (∀ j, 0 ≤ jit j ∧ jit j ≤ 1) →
        2 * (k : Int) + jit k ≤ t → t < 2 * ((k : Int) + 1) + jit (k + 1) →
        t - (2 * (k : Int) + jit k) ≤ 3) ∧
    (∀ (o : Evgrab.Obs) (rest : List Evgrab.Obs), o.sig = false → o.mtime ≠ 0 →
        o.now - o.mtime ≤ WATCHDOG_TIMEOUT_SECS → o.pollRet = 0 →
        Evgrab.loop (o :: rest) = Evgrab.loop rest) ∧
    (∀ (pre : List Evgrab.Obs) (o : Evgrab.Obs) (rest : List Evgrab.Obs),
        (Evgrab.loop pre).reason = none → o.sig = false → o.mtime ≠ 0 →
        o.now - o.mtime > WATCHDOG_TIMEOUT_SECS →
        (Evgrab.loop (pre ++ o :: rest)).reason = some .stale ∧
        (Evgrab.loop (pre ++ o :: rest)).code = 1) := by
  refine ⟨fun sched h => ?_, fun jit k t hj h1 h2 => ?_, fun o rest h1 h2 h3 h4 => ?_,
    fun pre o rest h hs hm hst => ?_⟩
  · refine Evgrab.loop_fresh_no_watchdog_exit sched (fun o ho => ⟨(h o ho).1, ?_⟩)
    have := (h o ho).2
    simp only [WATCHDOG_TIMEOUT_SECS]
    omega
  · have ha := hj k
    have hb := hj (k + 1)
    omega
  · simp [Evgrab.loop, Evgrab.evStep_idle_continue o h1 h2 h3 h4]
  · rw [Evgrab.loop_append pre (o :: rest) h]
    simp [Evgrab.loop, Evgrab.evStep_stale o hs hm hst]

/-- C5 witness: a check 3 seconds after the last refresh (the worst case
of the 2 second cadence with 1 second jitter) just continues the loop. -/
theorem C5_witness :
    Evgrab.loop [({ now := 13, mtime := 10, pollRet := 0 } : Evgrab.Obs)] = Evgrab.loop [] :=
  C5_amended_watchdog_timing.2.2.1 { now := 13, mtime := 10, pollRet := 0 } []
    rfl (by decide) (by decide) rfl

/-- C6 counterexample: one pass of the evgrab loop whose single read call
pulled 32 bytes - two 16-byte event records - into the 4096-byte buffer
before any write, then relayed them: more than one record was buffered
between a read and its writes, refuting the one-record bound for evgrab. -/
theorem C6_counterexample :
    Evgrab.loop [({ now := 1, mtime := 1, readRet := 32, writeRets := [32] } : Evgrab.Obs)] =
      { reason := none, code := 0, chunks := [(32, 32)] } ∧
    32 = 2 * INPUT_EVENT_SIZE := by
  constructor
  · decide
  · decide

/-- C6 as amended: rm-mouse-grabber does bound its buffering to one
16-byte record - every chunk either of its loops relays is at most
INPUT_EVENT_SIZE bytes (first and second conjuncts).  The evgrab
variants instead buffer one read chunk of up to 4096 bytes - up to 256
records - per pass, but each chunk is fully relayed before the next read
occurs: for the watchdog evgrab, the chunk bounds (third conjunct), full
relay in runs without a write failure (fourth conjunct) and a write
failure leaving only the final chunk partial (fifth conjunct); and the
same three facts for the no-watchdog variant (sixth through eighth
conjuncts, with the carried last read value quantified).  Per-device
ordering is preserved: the chunk lists record the relay in read order. -/
theorem C6_amended_single_chunk_buffering :
    (∀ (s : Int) (sched : List Grabber.Obs),
        ∀ c ∈ (Grabber.loopSC s sched).chunks, c ≤ INPUT_EVENT_SIZE) ∧
    (∀ sched : List Grabber.Obs, ∀ c ∈ (Grabber.loopB sched).chunks, c ≤ INPUT_EVENT_SIZE) ∧
    (∀ sched : List Evgrab.Obs, ∀ c ∈ (Evgrab.loop sched).chunks, c.1 ≤ 4096 ∧ c.2 ≤ c.1) ∧
    (∀ sched : List Evgrab.Obs, (Evgrab.loop sched).reason ≠ some .writeFail →
        ∀ c ∈ (Evgrab.loop sched).chunks, c.2 = c.1) ∧
    (∀ sched : List Evgrab.Obs, (Evgrab.loop sched).reason = some .writeFail →
        ∃ cs fin, (Evgrab.loop sched).chunks = cs ++ [fin] ∧
          (∀ c ∈ cs, c.2 = c.1) ∧ fin.2 ≤ fin.1) ∧
    (∀ (n : Int) (sched : List Nw.Obs),
        ∀ c ∈ (Nw.loop n sched).chunks, c.1 ≤ 4096 ∧ c.2 ≤ c.1) ∧
    (∀ (n : Int) (sched : List Nw.Obs), (Nw.loop n sched).reason ≠ some .writeFail →
        ∀ c ∈ (Nw.loop n sched).chunks, c.2 = c.1) ∧
    (∀ (n : Int) (sched : List Nw.Obs), (Nw.loop n sched).reason = some .writeFail →
        ∃ cs fin, (Nw.loop n sched).chunks = cs ++ [fin] ∧
          (∀ c ∈ cs, c.2 = c.1) ∧ fin.2 ≤ fin.1) :=
  ⟨Grabber.loopSC_chunk_le, Grabber.loopB_chunk_le, Evgrab.loop_chunk_bounds,
    Evgrab.loop_chunk_complete, Evgrab.loop_writeFail_chunks,
    Nw.nwLoop_chunk_bounds, Nw.nwLoop_chunk_complete, Nw.nwLoop_writeFail_chunks⟩

/-- A one-pass blocking-loop schedule relaying a single full record. -/
def c6oneRecordSched : List Grabber.Obs := [{ readRet := 16, writeRet := 16 }]

/-- C6 witness: the 16-byte chunk relayed by that schedule is within the
one-record bound. -/
theorem C6_witness :
    16 ∈ (Grabber.loopB c6oneRecordSched).chunks ∧ 16 ≤ INPUT_EVENT_SIZE :=
  ⟨by decide, C6_amended_single_chunk_buffering.2.1 c6oneRecordSched 16 (by decide)⟩

/-- C7 counterexample: invoking rm-mouse-grabber with only a device path
is a usage error with exit status 1 - the pidfile path is required too,
so the invocation does not require only a device path. -/
theorem C7_counterexample :
    Grabber.main { argv := ["--device", "/dev/input/event1"] } = .usage ∧
    Grabber.exitCodeOf Grabber.Result.usage = some 1 := by
  constructor
  · decide
  · decide

/-- C7 as amended: rm-mouse-grabber requires both --device and --pidfile;
--alive-file and --stale-sec stay optional with the staleness default of
10 seconds (first conjunct), a missing device or pidfile is a usage error
(second conjunct), arguments without the --alive-file flag leave the
marker path unset (third conjunct), and every such invocation runs the
blocking relay, which can never exit for staleness (or a poll error) -
self-check is disabled (fourth conjunct). -/
theorem C7_amended_arguments :
    (Grabber.parseArgs ["--device", "d", "--pidfile", "p"] {} =
      { device := some "d", pidfile := some "p", aliveFile := none, staleSec := 10 }) ∧
    (∀ inp : Grabber.Input,
        ((Grabber.parseArgs inp.argv {}).device.isNone ∨
         (Grabber.parseArgs inp.argv {}).pidfile.isNone) →
        Grabber.main inp = .usage) ∧
    (∀ (args : List String) (a : Grabber.Args), "--alive-file" ∉ args →
        (Grabber.parseArgs args a).aliveFile = a.aliveFile) ∧
    (∀ (inp : Grabber.Input) (o : Grabber.Outcome), "--alive-file" ∉ inp.argv →
        Grabber.main inp = .exited o →
        o.reason ≠ some .stale ∧ o.reason ≠ some .pollErr) := by
  refine ⟨by decide, fun inp h => ?_, Grabber.parseArgs_no_alive, fun inp o hna h => ?_⟩
  · unfold Grabber.main
    rcases h with h | h
    · rw [if_pos (by simp_all [Option.isNone_iff_eq_none])]
    · rw [if_pos (by simp_all [Option.isNone_iff_eq_none])]
  · have ha : (Grabber.parseArgs inp.argv {}).aliveFile = none := by
      simpa using Grabber.parseArgs_no_alive inp.argv {} hna
    have hr := Grabber.loopB_reasons inp.sched
    unfold Grabber.main at h
    simp only [ha, Option.isSome_none, Bool.false_eq_true, if_false] at h
    repeat' split at h
    all_goals try simp_all
    all_goals try (subst h; simp)
    all_goals (rcases hr with hr | hr <;> simp [hr])

/-- C7 witness: parsing only --device and --pidfile leaves the alive file
unset. -/
theorem C7_witness :
    (Grabber.parseArgs ["--device", "d", "--pidfile", "p"] {}).aliveFile = none :=
  C7_amended_arguments.2.2.1 ["--device", "d", "--pidfile", "p"] {} (by decide)

/-- C8: the no-watchdog evgrab variant polls stdout alongside the device
fd; at any point of a run, a pass observing stdout revents with POLLERR,
POLLHUP or POLLNVAL set (how poll reports a closed consumer) makes the
loop break at once with the stdout-closed reason, performing no further
read or write - the device contributing nothing in that pass and the rest
of the schedule being irrelevant - and every terminated run closes the
device fd, releasing the grab (second conjunct). -/
theorem C8_stdout_close_exits :
    (∀ (n : Int) (pre : List Nw.Obs) (o : Nw.Obs) (rest : List Nw.Obs),
        (Nw.loop n pre).reason = none → o.sig = false → 0 ≤ o.pollRet →
        o.revOut &&& (POLLERR ||| POLLHUP ||| POLLNVAL) ≠ 0 →
        Nw.loop n (pre ++ o :: rest) =
          { reason := some .stdoutClosed, lastN := (Nw.loop n pre).lastN,
            chunks := (Nw.loop n pre).chunks }) ∧
    (∀ (inp : Nw.Input) (r : Nw.Reason) (c : Int) (fd : Bool) (cs : List (Nat × Nat)),
        Nw.main inp = .exited r c fd cs → fd = true) := by
  refine ⟨fun n pre o rest h hs hp hrev => ?_, Nw.nwMain_exited_fdClosed⟩
  rw [Nw.nwLoop_append n pre (o :: rest) h]
  simp [Nw.loop, Nw.nwStep_stdoutClosed (Nw.loop n pre).lastN o hs hp hrev]

/-- C8 witness: a single pass seeing POLLHUP on stdout and no device data
exits with the stdout-closed reason. -/
theorem C8_witness :
    Nw.loop 0 [({ sig := false, pollRet := 1, revDev := 0, revOut := POLLHUP } : Nw.Obs)] =
      { reason := some Nw.Reason.stdoutClosed, lastN := 0, chunks := [] } := by
  have h := C8_stdout_close_exits.1 0 []
    { sig := false, pollRet := 1, revDev := 0, revOut := POLLHUP } []
    (by decide) rfl (by decide) (by decide)
  simpa using h

/-- An rm-mouse-grabber run relaying one full record and then suffering a
short write of 8 of 16 bytes. -/
def c9truncInput : Grabber.Input :=
  { argv := ["--device", "d", "--pidfile", "p"],
    sched := [{ readRet := 16, writeRet := 16 }, { readRet := 16, writeRet := 8 }] }

/-- C9: whenever the single write of the rm-mouse-grabber relay loop
returns anything other than the byte count just read - a successful
partial write included - the loop breaks at once without retrying the
remainder, in the blocking loop (first conjunct) and in the self-check
loop (second conjunct); the run of c9truncInput then ends with 24 bytes
on stdout, not a multiple of the 16-byte record size, so the final bytes
form a truncated record (third conjunct). -/
theorem C9_short_write_aborts :
    (∀ (pre : List Grabber.Obs) (o : Grabber.Obs) (rest : List Grabber.Obs),
        (Grabber.loopB pre).reason = none → o.sig = false →
        0 < readEff 16 o.readRet →
        Grabber.clampWrite (readEff 16 o.readRet) o.writeRet ≠ readEff 16 o.readRet →
        Grabber.loopB (pre ++ o :: rest) =
          { reason := some .writeFail,
            chunks := (Grabber.loopB pre).chunks ++
              [(Grabber.clampWrite (readEff 16 o.readRet) o.writeRet).toNat] }) ∧
    (∀ (s : Int) (pre : List Grabber.Obs) (o : Grabber.Obs) (rest : List Grabber.Obs),
        (Grabber.loopSC s pre).reason = none → o.sig = false →
        0 ≤ o.pollRet → o.pollRet ≠ 0 → o.revents &&& POLLIN ≠ 0 →
        0 < readEff 16 o.readRet →
        Grabber.clampWrite (readEff 16 o.readRet) o.writeRet ≠ readEff 16 o.readRet →
        Grabber.loopSC s (pre ++ o :: rest) =
          { reason := some .writeFail,
            chunks := (Grabber.loopSC s pre).chunks ++
              [(Grabber.clampWrite (readEff 16 o.readRet) o.writeRet).toNat] }) ∧
    (Grabber.main c9truncInput = .exited
      { exitCode := 0, exitKind := .normalReturn, grabReleasedByIoctl := true,
        fdClosedByCode := true, kernelCleanup := false, pidfileCreated := true,
        pidfileUnlinked := true, reason := some .writeFail, chunks := [16, 8] } ∧
     (16 + 8) % INPUT_EVENT_SIZE ≠ 0) := by
  refine ⟨fun pre o rest h hs hn hw => ?_, fun s pre o rest h hs hp0 hpn hrev hn hw => ?_,
    by decide, by decide⟩
  · rw [Grabber.loopB_append pre (o :: rest) h]
    have hb : Grabber.bStep o = (some .writeFail,
        [(Grabber.clampWrite (readEff 16 o.readRet) o.writeRet).toNat]) := by
      simp only [Grabber.bStep, hs, Bool.false_eq_true, if_false]
      exact Grabber.relayStep_short_write o hn hw
    simp [Grabber.loopB, hb]
  · rw [Grabber.loopSC_append s pre (o :: rest) h]
    have hb : Grabber.scStep s o = (some .writeFail,
        [(Grabber.clampWrite (readEff 16 o.readRet) o.writeRet).toNat]) := by
      simp only [Grabber.scStep, hs, Bool.false_eq_true, if_false]
      rw [if_neg (by omega), if_neg hpn, if_neg hrev]
      exact Grabber.relayStep_short_write o hn hw
    simp [Grabber.loopSC, hb]

/-- C9 witness: a first read of 16 bytes answered by a write of 8 breaks
the blocking loop at once, leaving 8 bytes - half a record - on stdout. -/
theorem C9_witness :
    Grabber.loopB [({ readRet := 16, writeRet := 8 } : Grabber.Obs)] =
      { reason := some Grabber.Reason.writeFail, chunks := [8] } := by
  have h := C9_short_write_aborts.1 [] { readRet := 16, writeRet := 8 } []
    (by decide) rfl (by decide) (by decide)
  simpa using h

/-- C10: rm-mouse-grabber creates its pidfile only once open and
EVIOCGRAB have succeeded - any run whose open or grab fails never creates
it (first conjunct); every exit that reaches cleanup (the normal return
after the relay loop, covering EOF, read and write failures, poll errors
and stale liveness) unlinks a nonempty pidfile path before returning
(second conjunct); and the signal-handler exit path (_exit) bypasses
cleanup, leaving the pidfile in place (third conjunct). -/
theorem C10_pidfile_lifecycle :
    (∀ inp : Grabber.Input, (inp.openOk = false ∨ inp.grabOk = false) →
        Grabber.pidfileEverCreated (Grabber.main inp) = false) ∧
    (∀ (inp : Grabber.Input) (o : Grabber.Outcome) (p : String),
        Grabber.main inp = .exited o → o.exitKind = .normalReturn →
        (Grabber.parseArgs inp.argv {}).pidfile = some p → p ≠ "" →
        o.pidfileUnlinked = true) ∧
    (∀ (inp : Grabber.Input) (o : Grabber.Outcome),
        Grabber.main inp = .exited o → o.exitKind = .signalExit →
        o.pidfileUnlinked = false ∧ o.exitCode = 0) := by
  refine ⟨fun inp hf => ?_, fun inp o p h hk hp hne => ?_, fun inp o h hk => ?_⟩
  · simp only [Grabber.main]
    repeat' split
    all_goals try rfl
    all_goals rcases hf with hf | hf <;> simp_all
  · unfold Grabber.main at h
    repeat' split at h
    all_goals try simp_all
    all_goals repeat' split at h
    all_goals try simp_all
    all_goals (subst h; simp_all)
  · unfold Grabber.main at h
    repeat' split at h
    all_goals try simp_all
    all_goals repeat' split at h
    all_goals try simp_all
    all_goals (subst h; simp_all)

/-- A run of rm-mouse-grabber killed by a signal in its first pass. -/
def c10sigInput : Grabber.Input :=
  { argv := ["--device", "d", "--pidfile", "p"], sched := [{ sig := true }] }

/-- C10 witness: the signal-path run terminates with exit code 0, its
pidfile created but never unlinked. -/
theorem C10_witness :
    Grabber.main c10sigInput = .exited
      { exitCode := 0, exitKind := .signalExit, grabReleasedByIoctl := false,
        fdClosedByCode := false, kernelCleanup := true, pidfileCreated := true,
        pidfileUnlinked := false, reason := some .signal, chunks := [] } ∧
    ({ exitCode := 0, exitKind := .signalExit, grabReleasedByIoctl := false,
        fdClosedByCode := false, kernelCleanup := true, pidfileCreated := true,
        pidfileUnlinked := false, reason := some .signal, chunks := [] } : Grabber.Outcome).pidfileUnlinked = false :=
  ⟨by decide, (C10_pidfile_lifecycle.2.2 c10sigInput _ (by decide) rfl).1⟩

end RmPad
